import Mathlib

/-!
Shallow embedding of the release-aggregation core of
SpotifyPersonalizedReleaseNotifications (JavaScript) in Lean 4.

Embedded source files:
* `src/utils/release-filter.js` — `isAlbumOrEP`, `parseReleaseDate`,
  `isRecentRelease`, `sortByReleaseDate`, `filterReleases`
* `src/spotify/album-retrieval.js` — `isOlderThanDays`,
  `fetchArtistAlbumsWithEarlyTermination`, `processBatch`,
  `fetchAllArtistAlbums`
* `src/utils/artist-manager.js` — `addArtistsFromSource`,
  `combineArtistSources`

Modelling conventions:
* JavaScript strings are `String`; the character-level operations the code
  uses (`split`, `parseInt`, `toLowerCase`, `includes`, regex `\d+`) are
  defined structurally on `String.data` (`List Char`) so that everything
  evaluates in the kernel.
* JavaScript numbers are `Int`/`Nat` (the code only ever produces integral
  values here); `NaN` is modelled by `Option` (`none` = NaN / Invalid Date).
* `new Date(y, m, d)` is modelled as a millisecond timestamp
  (days-from-civil × 86400000, local time taken as UTC, including the
  JS quirk that years 0–99 are mapped to 1900–1999); the current time
  `new Date()` becomes an explicit `now : Int` parameter.
* The remote Spotify endpoints are modelled by explicit oracles: the
  per-artist discography endpoint is a list of items served in pages,
  and failures are HTTP status responses.
* `async`/`await` sequencing is direct state passing; `delay` calls are
  logged rather than performed; thrown errors are `Except` with the
  error's message string as the payload (the code matches on message
  substrings, so the message is semantically relevant).
-/

namespace SpotifyNotif

/-! ### JavaScript string/number primitives -/

/-- Decimal value of a list of digit characters (the value `parseInt`
computes once the digit prefix has been isolated). -/
def digitsVal (cs : List Char) : Nat :=
  cs.foldl (fun a c => 10 * a + (c.toNat - 48)) 0

/-- Decimal digit characters of a natural number, most significant
first, with a fuel bound on the number of digits (structural recursion so
that the kernel can evaluate it; `natChars` supplies ample fuel). -/
def natCharsAux : Nat → Nat → List Char
  | 0, _ => []
  | fuel + 1, n =>
    if n < 10 then [Char.ofNat (48 + n)]
    else natCharsAux fuel (n / 10) ++ [Char.ofNat (48 + n % 10)]

/-- Decimal digit characters of a natural number, most significant first
(model of JavaScript number-to-string conversion in template literals). -/
def natChars (n : Nat) : List Char := natCharsAux (n + 1) n

/-- Maximal leading digit run of a character list, as a number; `none`
when there is no leading digit (`parseInt` → NaN). -/
def digitsPre (cs : List Char) : Option Nat :=
  let ds := cs.takeWhile Char.isDigit
  if ds = [] then none else some (digitsVal ds)

def jsWhitespace (c : Char) : Bool :=
  c = ' ' || c = '\t' || c = '\n' || c = '\r'

/-- Model of JavaScript `parseInt(s, 10)`: skip leading whitespace, an
optional sign, then the maximal digit prefix; `none` models `NaN`. -/
def jsParseInt (s : String) : Option Int :=
  match s.data.dropWhile jsWhitespace with
  | '-' :: rest => (digitsPre rest).map (fun n => -(n : Int))
  | '+' :: rest => (digitsPre rest).map (fun n => (n : Int))
  | cs => (digitsPre cs).map (fun n => (n : Int))

/-- First run of digits anywhere in the string, as a number: model of
`s.match(/\d+/)?.[0]` followed by `parseInt`. -/
def firstNat (cs : List Char) : Option Nat :=
  digitsPre (cs.dropWhile (fun c => !c.isDigit))

/-- Model of `String.prototype.split(sep)` for a one-character separator
(the code only splits on `'-'`). `split` of the empty string is `[""]`. -/
def splitChars (sep : Char) : List Char → List (List Char)
  | [] => [[]]
  | c :: rest =>
    match splitChars sep rest with
    | [] => [[]]
    | g :: gs => if c = sep then [] :: g :: gs else (c :: g) :: gs

/-- Model of `String.prototype.includes(sub)` on character lists. -/
def includesSub (sub : List Char) : List Char → Bool
  | [] => sub.isEmpty
  | c :: rest => sub.isPrefixOf (c :: rest) || includesSub sub rest

/-- Model of `String.prototype.toLowerCase()` (ASCII, which is all the
code relies on for the `"ep"` test). -/
def lowerChars (cs : List Char) : List Char :=
  cs.map Char.toLower

/-! ### JavaScript `Date` model

`new Date(y, m, d)` (local constructor, month 0-based) is modelled as the
millisecond timestamp of that civil date at midnight, with local time
taken as UTC.  `daysFromCivil` is the standard civil-from-days algorithm
over truncating division, with the JS two-digit-year quirk applied. -/

def daysFromCivil (y m d : Int) : Int :=
  let yAdj := if m ≤ 2 then y - 1 else y
  let era := Int.tdiv (if 0 ≤ yAdj then yAdj else yAdj - 399) 400
  let yoe := yAdj - era * 400
  let mp := Int.tmod (m + 9) 12
  let doy := Int.tdiv (153 * mp + 2) 5 + d - 1
  let doe := yoe * 365 + Int.tdiv yoe 4 - Int.tdiv yoe 100 + doy
  era * 146097 + doe - 719468

/-- `new Date(year, month0, day).getTime()` with `month0` 0-based, as the
JS constructor takes it. Years 0–99 denote 1900–1999. -/
def jsDateTime (year month0 day : Int) : Int :=
  86400000 * daysFromCivil (if 0 ≤ year ∧ year ≤ 99 then year + 1900 else year) (month0 + 1) day

/-! ### Data model: albums (raw releases) -/

/-- A Spotify album object as the retrieval layer materialises it
(`release_date` is `none` when the field is absent). Fields not consulted
by the embedded functions (images, urls, artist list) are omitted. -/
structure Album where
  id : String
  name : String
  album_type : String
  total_tracks : Int
  release_date : Option String
deriving DecidableEq

/-! ### `src/utils/release-filter.js` -/

/-- The shared date-string decomposition that both `parseReleaseDate`
(release-filter.js lines 37–40) and `isOlderThanDays`
(album-retrieval.js lines 26–29) inline verbatim:
`parts = s.split('-'); year = parseInt(parts[0]); month = parts[1] ?
parseInt(parts[1]) - 1 : 0; day = parts[2] ? parseInt(parts[2]) : 1`.
`none` components model `NaN`. -/
def parseDateParts (str : String) : Option Int × Option Int × Option Int :=
  let parts := splitChars '-' str.data
  let year := jsParseInt ⟨parts.getD 0 []⟩
  let month := match parts[1]? with
    | some p => if p = [] then some 0 else (jsParseInt ⟨p⟩).map (· - 1)
    | none => some 0
  let day := match parts[2]? with
    | some p => if p = [] then some 1 else jsParseInt ⟨p⟩
    | none => some 1
  (year, month, day)

/-- `new Date(y, m, d)` from possibly-NaN components; `none` is an
Invalid Date. -/
def mkJsDate : Option Int → Option Int → Option Int → Option Int
  | some y, some m, some d => some (jsDateTime y m d)
  | _, _, _ => none

/-- `parseReleaseDate(releaseDateString)`: `null` (outer `none`) for a
missing/empty string, otherwise a `Date` that is Invalid (inner `none`)
when a numeric component failed to parse. -/
def parseReleaseDate : Option String → Option (Option Int)
  | none => none
  | some str =>
    if str = "" then none
    else
      let (y, m, d) := parseDateParts str
      some (mkJsDate y m d)

/-- `isAlbumOrEP(album)`: albums always; singles when `total_tracks >= 4`
or the lower-cased name contains `"ep"`; everything else excluded. -/
def isAlbumOrEP (album : Album) : Bool :=
  if album.album_type = "album" then true
  else if album.album_type = "single" then
    decide (album.total_tracks ≥ 4) || includesSub "ep".data (lowerChars album.name.data)
  else false

/-- `isRecentRelease(album, daysBack)` at current time `now`:
`releaseDate >= new Date(now - daysBack*86400000)`; a `null` parse gives
`false`, and an Invalid Date gives `false` (NaN comparison). -/
def isRecentRelease (album : Album) (daysBack : Int) (now : Int) : Bool :=
  match parseReleaseDate album.release_date with
  | none => false
  | some none => false
  | some (some t) => decide (t ≥ now - daysBack * 86400000)

/-- `sortByReleaseDate(a, b)` comparator value; `none` models a `NaN`
result (`getTime()` arithmetic involving an Invalid Date). -/
def sortByReleaseDate (a b : Album) : Option Int :=
  match parseReleaseDate a.release_date, parseReleaseDate b.release_date with
  | none, none => some 0
  | none, some _ => some 1
  | some _, none => some (-1)
  | some da, some db =>
    match da, db with
    | some ta, some tb => some (tb - ta)
    | _, _ => none

/-- The value `Array.prototype.sort` actually uses: a NaN comparator
result is treated as `+0` (ECMA-262 SortCompare). -/
def sortCompareResult (a b : Album) : Int :=
  (sortByReleaseDate a b).getD 0

/-- `a` may be placed before `b` by the sort. -/
def sortLe (a b : Album) : Bool :=
  decide (sortCompareResult a b ≤ 0)

/-- Stable insertion of one element into a sorted list. -/
def insertSorted (x : Album) : List Album → List Album
  | [] => [x]
  | y :: ys => if sortLe x y then x :: y :: ys else y :: insertSorted x ys

/-- Model of the (stable, per ECMA-262) `Array.prototype.sort` with the
`sortByReleaseDate` comparator. -/
def stableSortByRelease : List Album → List Album
  | [] => []
  | x :: xs => insertSorted x (stableSortByRelease xs)

/-- `filterReleases(albums, {daysBack})` at current time `now`:
filter to albums/EPs, filter to recent releases, sort newest first. -/
def filterReleases (albums : List Album) (daysBack : Int) (now : Int) : List Album :=
  stableSortByRelease
    ((albums.filter isAlbumOrEP).filter (fun album => isRecentRelease album daysBack now))

/-! ### `src/spotify/album-retrieval.js` -/

/-- `isOlderThanDays(releaseDateString, daysBack)` at current time `now`:
missing/empty date counts as old; otherwise
`new Date(y,m,d) < new Date(now - daysBack*86400000)`, which is `false`
for an Invalid Date (NaN comparison). The date decomposition is the same
inline code as in `parseReleaseDate`. -/
def isOlderThanDays (releaseDateString : Option String) (daysBack : Int) (now : Int) : Bool :=
  match releaseDateString with
  | none => true
  | some s =>
    if s = "" then true
    else
      let (y, m, d) := parseDateParts s
      match mkJsDate y m d with
      | none => false
      | some t => decide (t < now - daysBack * 86400000)

/-- One `getArtistAlbums` page: the discography endpoint serves
`items[offset .. offset+limit)` of its item list and the list's length as
`total`. -/
def getArtistAlbumsPage (items : List Album) (offset limit : Nat) : List Album × Nat :=
  ((items.drop offset).take limit, items.length)

/-- The `while (totalAvailable === null || offset < totalAvailable)` loop
of `fetchArtistAlbumsWithEarlyTermination`, with an explicit request
counter. Per iteration: fetch a page (limit 20), record `total` on the
first response, scan the page for an item older than 10 days, append the
whole page to the accumulator, then stop if an old item was found or the
page was short; otherwise advance `offset` by the page length. The fuel
argument only bounds iteration and is never exhausted when it starts at
`items.length + 1`. -/
def fetchLoop (items : List Album) (now : Int) :
    Nat → Nat → Option Nat → List Album → Nat → List Album × Nat
  | 0, _, _, acc, reqs => (acc, reqs)
  | fuel + 1, offset, totalAvailable, acc, reqs =>
    if totalAvailable = none ∨ offset < totalAvailable.getD 0 then
      let (albums, total) := getArtistAlbumsPage items offset 20
      let foundOldAlbum := albums.any (fun album => isOlderThanDays album.release_date 10 now)
      let acc := acc ++ albums
      let reqs := reqs + 1
      if foundOldAlbum then (acc, reqs)
      else if albums.length < 20 then (acc, reqs)
      else fetchLoop items now fuel (offset + albums.length) (some total) acc reqs
    else (acc, reqs)

/-- `fetchArtistAlbumsWithEarlyTermination(artist)` against a discography
endpoint serving `items`, at current time `now`; returns the accumulated
albums and the number of page requests issued. -/
def fetchArtistAlbumsWithEarlyTermination (items : List Album) (now : Int) :
    List Album × Nat :=
  fetchLoop items now (items.length + 1) 0 none [] 0

/-- What the remote API does for one artist request: either the
discography endpoint works and serves this item list in pages, or every
request fails with this HTTP status (with an optional `retry-after`
header). -/
inductive ApiResponse where
  | pages (items : List Album)
  | httpError (statusCode : Nat) (retryAfterHeader : Option Nat)
deriving DecidableEq

/-- `error.headers['retry-after'] || 1` — a missing header, and the falsy
value `0`, both become 1. -/
def retryAfterOf : Option Nat → Nat
  | none => 1
  | some r => if r = 0 then 1 else r

/-- The message of the error thrown on a 429:
``Rate limited. Retry after ${retryAfter} seconds``. -/
def rateLimitedMessage (retryAfterHeader : Option Nat) : List Char :=
  "Rate limited. Retry after ".data ++ natChars (retryAfterOf retryAfterHeader)
    ++ " seconds".data

/-- An artist as `processBatch` consumes it. -/
structure Artist where
  id : String
  name : String
deriving DecidableEq

/-- One call of `fetchArtistAlbums(artist)` (search optimization is off by
default, so this is `fetchArtistAlbumsWithEarlyTermination`) with its
catch clause: 429 → throw the rate-limited message, 404 → empty result,
5xx → throw a per-artist server error, anything else → rethrow. Errors
are modelled by their message, which is what `processBatch` inspects. -/
def fetchArtistAlbums (resp : ApiResponse) (artistName : String) (now : Int) :
    Except (List Char) (List Album) :=
  match resp with
  | .pages items => .ok (fetchArtistAlbumsWithEarlyTermination items now).1
  | .httpError 429 ra => .error (rateLimitedMessage ra)
  | .httpError 404 _ => .ok []
  | .httpError sc _ =>
    if sc ≥ 500 then .error ("Spotify API error for ".data ++ artistName.data)
    else .error "Request failed".data

/-- Everything observable about one `processBatch` run: the collected
albums, every `delay(ms)` call in order, and every `fetchArtistAlbums`
call as (artist id, attempt number). -/
structure BatchLog where
  results : List Album
  delaysMs : List Nat
  calls : List (String × Nat)
deriving DecidableEq

/-- An oracle giving the API's response to the `attempt`-th fetch for an
artist id within a batch run (attempt 0 = first try, 1 = the retry). -/
def ApiOracle := String → Nat → ApiResponse

/-- The body of `processBatch`'s `for` loop for one artist at index `i`:
delay 100ms between artists; try the fetch; on an error whose message
contains `'Rate limited'`, sleep `parseInt(message.match(/\d+/)[0] ||
'60') * 1000` ms and retry exactly once, swallowing a second failure;
swallow any other error. -/
def processArtistStep (oracle : ApiOracle) (now : Int) (log : BatchLog) (i : Nat)
    (artist : Artist) : BatchLog :=
  let log := if i > 0 then { log with delaysMs := log.delaysMs ++ [100] } else log
  let log := { log with calls := log.calls ++ [(artist.id, 0)] }
  match fetchArtistAlbums (oracle artist.id 0) artist.name now with
  | .ok albums => { log with results := log.results ++ albums }
  | .error msg =>
    if includesSub "Rate limited".data msg then
      let waitTime := (firstNat msg).getD 60
      let log := { log with delaysMs := log.delaysMs ++ [waitTime * 1000] }
      let log := { log with calls := log.calls ++ [(artist.id, 1)] }
      match fetchArtistAlbums (oracle artist.id 1) artist.name now with
      | .ok albums => { log with results := log.results ++ albums }
      | .error _ => log
    else log

/-- `processBatch(artistBatch)`: process the batch sequentially,
collecting results and logging delays and calls. -/
def processBatch (oracle : ApiOracle) (now : Int) (artistBatch : List Artist) : BatchLog :=
  (artistBatch.foldl (fun st artist => (processArtistStep oracle now st.1 st.2 artist, st.2 + 1))
    (⟨[], [], []⟩, 0)).1

/-- The albums one artist contributes to a batch (first attempt, plus the
single retry on a rate-limit error). -/
def artistAlbums (oracle : ApiOracle) (now : Int) (artist : Artist) : List Album :=
  match fetchArtistAlbums (oracle artist.id 0) artist.name now with
  | .ok albums => albums
  | .error msg =>
    if includesSub "Rate limited".data msg then
      match fetchArtistAlbums (oracle artist.id 1) artist.name now with
      | .ok albums => albums
      | .error _ => []
    else []

/-- The fetch calls one artist causes. -/
def artistCalls (oracle : ApiOracle) (now : Int) (artist : Artist) : List (String × Nat) :=
  match fetchArtistAlbums (oracle artist.id 0) artist.name now with
  | .ok _ => [(artist.id, 0)]
  | .error msg =>
    if includesSub "Rate limited".data msg then [(artist.id, 0), (artist.id, 1)]
    else [(artist.id, 0)]

/-- The rate-limit sleeps one artist causes (in ms). -/
def artistDelays (oracle : ApiOracle) (now : Int) (artist : Artist) : List Nat :=
  match fetchArtistAlbums (oracle artist.id 0) artist.name now with
  | .ok _ => []
  | .error msg =>
    if includesSub "Rate limited".data msg then [((firstNat msg).getD 60) * 1000]
    else []

/-- All delays of a batch starting at artist index `i`: a 100ms
inter-request delay before every artist but the first, plus each artist's
rate-limit sleeps. -/
def batchDelays (oracle : ApiOracle) (now : Int) : Nat → List Artist → List Nat
  | _, [] => []
  | i, artist :: rest =>
    (if i > 0 then [100] else []) ++ artistDelays oracle now artist
      ++ batchDelays oracle now (i + 1) rest

/-- Fuel-bounded version of the batch chunking (structural recursion so
the kernel can evaluate it; `chunked` supplies ample fuel). -/
def chunkedAux : Nat → List Artist → List (List Artist)
  | 0, _ => []
  | fuel + 1, artists =>
    if artists = [] then [] else artists.take 10 :: chunkedAux fuel (artists.drop 10)

/-- `artists.slice(i, i + batchSize)` chunking with the default batch
size 10, as the loop in `fetchAllArtistAlbums` produces it. -/
def chunked (artists : List Artist) : List (List Artist) :=
  chunkedAux artists.length artists

/-- `fetchAllArtistAlbums(artists)`: batches of 10 through `processBatch`,
results concatenated. The `try`/`catch` around the loop can only rethrow
an error raised inside the loop body, and `processBatch` swallows every
per-artist error, so the run always returns normally; the `Except` return
type records that no error escapes. -/
def fetchAllArtistAlbums (oracle : ApiOracle) (now : Int) (artists : List Artist) :
    Except (List Char) (List Album) :=
  .ok ((chunked artists).flatMap (fun batch => (processBatch oracle now batch).results))

/-! ### `src/utils/artist-manager.js` -/

/-- An artist record as a source (followed / liked tracks / saved albums)
yields it; optional metadata is `none` when the field is absent. -/
structure SrcArtist where
  id : String
  name : String
  spotify_url : String
  genres : Option (List String)
  popularity : Option Int
  followers : Option Int
deriving DecidableEq

/-- A combined artist entry as stored in the `combinedArtists` map. -/
structure MergedArtist where
  id : String
  name : String
  spotify_url : String
  sources : List String
  genres : Option (List String)
  popularity : Option Int
  followers : Option Int
deriving DecidableEq

/-- The enhanced record built for a first-seen artist: the conditional
spreads `...(artist.genres && {genres})` etc. keep `genres` whenever
present (an empty array is truthy) but drop a falsy `popularity`/
`followers` value `0`. -/
def enhanceArtist (artist : SrcArtist) (sourceName : String) : MergedArtist :=
  { id := artist.id
    name := artist.name
    spotify_url := artist.spotify_url
    sources := [sourceName]
    genres := artist.genres
    popularity := match artist.popularity with
      | some p => if p = 0 then none else some p
      | none => none
    followers := match artist.followers with
      | some n => if n = 0 then none else some n
      | none => none }

/-- `if (!existingArtist.sources.includes(sourceName))
existingArtist.sources.push(sourceName)`. -/
def addSourceTag (sourceName : String) (m : MergedArtist) : MergedArtist :=
  if sourceName ∈ m.sources then m else { m with sources := m.sources ++ [sourceName] }

/-- The `combinedArtists` map: a JS `Map` keyed by artist id, insertion
order preserved. -/
abbrev ArtistMap := List (String × MergedArtist)

/-- `Map.prototype.get` (with `has` being `isSome` of this). -/
def findEntry : ArtistMap → String → Option MergedArtist
  | [], _ => none
  | (k, v) :: rest, id => if k = id then some v else findEntry rest id

/-- `Map.prototype.set` on an existing key: replace in place. -/
def updateEntry (f : MergedArtist → MergedArtist) : ArtistMap → String → ArtistMap
  | [], _ => []
  | (k, v) :: rest, id =>
    if k = id then (k, f v) :: rest else (k, v) :: updateEntry f rest id

/-- The body of the `artists.forEach` in `addArtistsFromSource`: drop
entries with a falsy id; add the source tag to an existing entry;
otherwise append the enhanced record. -/
def addArtistStep (sourceName : String) (m : ArtistMap) (artist : SrcArtist) : ArtistMap :=
  if artist.id = "" then m
  else
    match findEntry m artist.id with
    | some _ => updateEntry (addSourceTag sourceName) m artist.id
    | none => m ++ [(artist.id, enhanceArtist artist sourceName)]

/-- `addArtistsFromSource(artists, sourceName)` acting on the map. -/
def addArtistsFromSource (m : ArtistMap) (artists : List SrcArtist) (sourceName : String) :
    ArtistMap :=
  artists.foldl (addArtistStep sourceName) m

/-- `combineArtistSources(followed, likedTracks, savedAlbums)`:
clear the map, add the three sources in order, return the values. -/
def combineArtistSources (followedArtists likedTrackArtists savedAlbumArtists : List SrcArtist) :
    List MergedArtist :=
  (addArtistsFromSource
    (addArtistsFromSource
      (addArtistsFromSource [] followedArtists "followed")
      likedTrackArtists "liked_tracks")
    savedAlbumArtists "saved_albums").map (·.2)

/-! ### Derived notions and concrete scenario data -/

/-- The comparable instant of an album's release date: `some t` exactly
when the date parses to a valid `Date`. -/
def validInstant (album : Album) : Option Int :=
  (parseReleaseDate album.release_date).bind id

/-- Well-formedness of the `combinedArtists` map: keys are distinct, each
entry is stored under its own id, and no entry's source list has a
duplicate tag. -/
def MapWF (m : ArtistMap) : Prop :=
  (m.map (·.1)).Nodup ∧ ∀ p ∈ m, p.2.id = p.1 ∧ p.2.sources.Nodup

/-- A fixed current time for the concrete scenarios: 2025-10-11 local
midnight (so the 10-day window starts 2025-10-01). -/
def scenarioNow : Int := jsDateTime 2025 9 11

/-- An in-window release: 1 day old at `scenarioNow`. -/
def recentAlbum : Album :=
  { id := "r1", name := "Recent", album_type := "album", total_tracks := 10,
    release_date := some "2025-10-10" }

/-- An out-of-window release: 15 days old at `scenarioNow`. -/
def oldAlbum : Album :=
  { id := "o1", name := "Old", album_type := "album", total_tracks := 8,
    release_date := some "2025-09-26" }

/-- Scenario B's discography: 3 pages of 20 items, newest first; items
1–24 are within the 10-day window and items 25–60 are 15 days old. -/
def scenarioItems : List Album :=
  List.replicate 24 recentAlbum ++ List.replicate 36 oldAlbum

/-- A release dated with month precision only. -/
def monthPrecAlbum : Album :=
  { id := "m1", name := "MonthPrec", album_type := "album", total_tracks := 9,
    release_date := some "2025-08" }

/-- A release dated with day precision. -/
def dayPrecAlbum : Album :=
  { id := "d1", name := "DayPrec", album_type := "album", total_tracks := 9,
    release_date := some "2025-08-15" }

/-- A release with no release date at all. -/
def missingDateAlbum : Album :=
  { id := "n1", name := "NoDate", album_type := "album", total_tracks := 9,
    release_date := none }

/-- A release whose date string is non-empty but numerically unparsable
(`parseInt` gives NaN, so `new Date` is an Invalid Date). -/
def unparsableAlbum : Album :=
  { id := "u1", name := "Unparsable", album_type := "album", total_tracks := 9,
    release_date := some "abc" }

/-- Test vector: a 2-track single whose name contains "EP". -/
def namedEpSingle : Album :=
  { id := "w1", name := "Foo EP", album_type := "single", total_tracks := 2,
    release_date := none }

/-- Test vector: a plain 3-track single. -/
def plainSingle : Album :=
  { id := "w2", name := "Foo", album_type := "single", total_tracks := 3,
    release_date := none }

/-- Test vector: a 0-track single without "ep" in its name. -/
def zeroTrackSingle : Album :=
  { id := "w3", name := "Zero", album_type := "single", total_tracks := 0,
    release_date := none }

/-- Test vector: a compilation. -/
def compilationAlbum : Album :=
  { id := "w4", name := "Comp", album_type := "compilation", total_tracks := 50,
    release_date := none }

/-- Scenario C's rate-limited artist X. -/
def artistX : Artist := { id := "x", name := "X" }

/-- Scenario C's healthy artist Y. -/
def artistY : Artist := { id := "y", name := "Y" }

/-- Scenario C oracle: every request for X is a 429 carrying
`retry-after: 2`; everyone else's discography serves one recent album. -/
def rlOracle : ApiOracle := fun id _ =>
  if id = "x" then .httpError 429 (some 2) else .pages [recentAlbum]

/-- An oracle under which every request fails with a 429. -/
def failOracle : ApiOracle := fun _ _ => .httpError 429 (some 2)

/-- The complete observable output of Scenario C's batch run: Y's album,
the 2-second rate-limit sleep then the 100ms inter-request delay, and the
three fetch calls (X tried twice, Y once). -/
def c2ExpectedLog : BatchLog :=
  { results := [recentAlbum], delaysMs := [2000, 100],
    calls := [("x", 0), ("x", 1), ("y", 0)] }

/-- A source artist used in the concrete merge scenarios. -/
def srcArtistA : SrcArtist :=
  { id := "a1", name := "Alpha", spotify_url := "https://a", genres := some ["rock"],
    popularity := some 55, followers := some 100 }

/-- The same artist id surfaced by a second source with different
metadata. -/
def srcArtistA2 : SrcArtist :=
  { id := "a1", name := "AlphaDup", spotify_url := "https://a2", genres := none,
    popularity := some 7, followers := none }

/-! ## Claim theorems -/

/-- C5: classification. `isAlbumOrEP` includes every release of type
`'album'` regardless of track count; a `'single'` is included exactly
when `total_tracks >= 4` or its name case-insensitively contains the
substring `"ep"` (in particular a 0-track single without `"ep"` in its
name is excluded); any other `album_type` is excluded. -/
theorem C5_classification (album : Album) :
    (album.album_type = "album" → isAlbumOrEP album = true)
  ∧ (album.album_type = "single" →
      (isAlbumOrEP album = true ↔
        (album.total_tracks ≥ 4 ∨ includesSub "ep".data (lowerChars album.name.data) = true)))
  ∧ (album.album_type = "single" → album.total_tracks = 0 →
      includesSub "ep".data (lowerChars album.name.data) = false →
      isAlbumOrEP album = false)
  ∧ (album.album_type ≠ "album" → album.album_type ≠ "single" →
      isAlbumOrEP album = false) := by
  refine ⟨fun h => by simp [isAlbumOrEP, h], fun h => ?_, fun h h0 hep => ?_,
    fun h1 h2 => by simp [isAlbumOrEP, h1, h2]⟩
  · have hne : album.album_type ≠ "album" := by rw [h]; decide
    simp [isAlbumOrEP, h, hne]
  · have hne : album.album_type ≠ "album" := by rw [h]; decide
    simp [isAlbumOrEP, h, hne, h0, hep]

/-- C5 witness: the spec's own test vectors, via `C5_classification`. -/
theorem C5_classification_witness :
    isAlbumOrEP namedEpSingle = true
  ∧ isAlbumOrEP plainSingle = false
  ∧ isAlbumOrEP zeroTrackSingle = false
  ∧ isAlbumOrEP compilationAlbum = false := by
  refine ⟨?_, ?_, ?_, ?_⟩
  · exact ((C5_classification namedEpSingle).2.1 rfl).mpr (Or.inr (by decide))
  · have h := (C5_classification plainSingle).2.1 rfl
    by_contra hb
    rcases h.mp (by revert hb; decide) with h4 | hep
    · exact absurd h4 (by decide)
    · exact absurd hep (by decide)
  · exact (C5_classification zeroTrackSingle).2.2.1 rfl rfl (by decide)
  · exact (C5_classification compilationAlbum).2.2.2 (by decide) (by decide)

/-- C10: a missing or empty release-date string is agreed not recent by
both date checks, for every window size and every current time:
`isOlderThanDays` returns `true` (so the paginated scan stops requesting
further pages at such an item) and `isRecentRelease` returns `false` (so
`filterReleases` never keeps it). -/
theorem C10_missing_date (album : Album) (daysBack now : Int)
    (h : album.release_date = none ∨ album.release_date = some "") :
    isOlderThanDays album.release_date daysBack now = true ∧
    isRecentRelease album daysBack now = false := by
  rcases h with h | h <;>
    simp [isOlderThanDays, isRecentRelease, parseReleaseDate, h]

/-- C10 witness: a concrete missing-date album at window 10. -/
theorem C10_missing_date_witness :
    missingDateAlbum.release_date = none ∧
    isOlderThanDays missingDateAlbum.release_date 10 scenarioNow = true ∧
    isRecentRelease missingDateAlbum 10 scenarioNow = false := by
  refine ⟨rfl, ?_⟩
  exact C10_missing_date missingDateAlbum 10 scenarioNow (Or.inl rfl)

/-- C1 counterexample: in Scenario B (3 pages of 20, items 1–24 within
the 10-day window, item 25 and later 15 days old), the retriever does
issue exactly 2 page requests, but the returned sequence has 40 items,
not 24: the whole second page — including its 16 out-of-window items —
is appended before the loop breaks. -/
theorem C1_early_termination_cex :
    (fetchArtistAlbumsWithEarlyTermination scenarioItems scenarioNow).2 = 2 ∧
    (fetchArtistAlbumsWithEarlyTermination scenarioItems scenarioNow).1.length = 40 ∧
    oldAlbum ∈ (fetchArtistAlbumsWithEarlyTermination scenarioItems scenarioNow).1 ∧
    isOlderThanDays oldAlbum.release_date 10 scenarioNow = true := by decide

/-- C1 (amended): in Scenario B the retriever issues exactly 2 page
requests and stops requesting further pages once an out-of-window item is
seen, and it returns the 40 items of the two fetched pages (the 24
in-window ones plus the 16 out-of-window items of page 2); the
out-of-window items are only removed downstream by `filterReleases`. -/
theorem C1_early_termination :
    fetchArtistAlbumsWithEarlyTermination scenarioItems scenarioNow =
      (List.replicate 24 recentAlbum ++ List.replicate 16 oldAlbum, 2) := by decide

/-- C9: partial-date parsing defaults missing components to the earliest
value of their unit. A one-part numeric date string parses to January 1
of that year at midnight (the minimum of the day, i.e. the instant of
Jan 1); a two-part string gets day 1; a three-part string takes all three
components. The hypotheses express the string's shape through the exact
split-and-parseInt decomposition the code performs. -/
theorem C9_partial_date_parsing (str : String) (p0 p1 p2 : List Char) (y m d : Int) :
    (splitChars '-' str.data = [p0] → jsParseInt ⟨p0⟩ = some y →
      parseReleaseDate (some str) = some (some (jsDateTime y 0 1)))
  ∧ (splitChars '-' str.data = [p0, p1] → p1 ≠ [] →
      jsParseInt ⟨p0⟩ = some y → jsParseInt ⟨p1⟩ = some m →
      parseReleaseDate (some str) = some (some (jsDateTime y (m - 1) 1)))
  ∧ (splitChars '-' str.data = [p0, p1, p2] → p1 ≠ [] → p2 ≠ [] →
      jsParseInt ⟨p0⟩ = some y → jsParseInt ⟨p1⟩ = some m → jsParseInt ⟨p2⟩ = some d →
      parseReleaseDate (some str) = some (some (jsDateTime y (m - 1) d))) := by
  have hempty : str = "" → str.data = [] := fun h => by rw [h]
  refine ⟨fun hsplit hy => ?_, fun hsplit hp1 hy hm => ?_,
    fun hsplit hp1 hp2 hy hm hd => ?_⟩
  · have hne : str ≠ "" := by
      intro h
      rw [hempty h] at hsplit
      simp only [splitChars] at hsplit
      obtain rfl : p0 = [] := (List.cons.injEq _ _ _ _ ▸ hsplit).1.symm
      exact Option.noConfusion (hy.symm.trans (rfl : jsParseInt ⟨[]⟩ = none))
    have hp : parseDateParts str = (some y, some 0, some 1) := by
      simp [parseDateParts, hsplit, hy]
    simp [parseReleaseDate, if_neg hne, hp, mkJsDate]
  · have hne : str ≠ "" := by
      intro h
      rw [hempty h] at hsplit
      simp only [splitChars] at hsplit
      simp at hsplit
    have hp : parseDateParts str = (some y, some (m - 1), some 1) := by
      simp [parseDateParts, hsplit, hy, hp1, hm]
    simp [parseReleaseDate, if_neg hne, hp, mkJsDate]
  · have hne : str ≠ "" := by
      intro h
      rw [hempty h] at hsplit
      simp only [splitChars] at hsplit
      simp at hsplit
    have hp : parseDateParts str = (some y, some (m - 1), some d) := by
      simp [parseDateParts, hsplit, hy, hp1, hm, hp2, hd]
    simp [parseReleaseDate, if_neg hne, hp, mkJsDate]

/-- C9 witness: the three precision shapes on concrete strings. -/
theorem C9_partial_date_parsing_witness :
    parseReleaseDate (some "2025") = some (some (jsDateTime 2025 0 1))
  ∧ parseReleaseDate (some "2025-08") = some (some (jsDateTime 2025 7 1))
  ∧ parseReleaseDate (some "2025-08-15") = some (some (jsDateTime 2025 7 15)) := by
  refine ⟨?_, ?_, ?_⟩
  · exact (C9_partial_date_parsing "2025" "2025".data [] [] 2025 0 0).1
      (by decide) (by decide)
  · have h := (C9_partial_date_parsing "2025-08" "2025".data "08".data [] 2025 8 0).2.1
      (by decide) (by decide) (by decide) (by decide)
    have h7 : (8 : Int) - 1 = 7 := by norm_num
    rwa [h7] at h
  · have h := (C9_partial_date_parsing "2025-08-15" "2025".data "08".data "15".data
      2025 8 15).2.2 (by decide) (by decide) (by decide) (by decide) (by decide) (by decide)
    have h7 : (8 : Int) - 1 = 7 := by norm_num
    rwa [h7] at h

/-- C8 counterexample: a release whose date string is non-empty but
unparsable (`"abc"`) does not sort after a dated release: `parseInt`
yields NaN, the `Date` is Invalid, the comparator arithmetic is NaN, and
the sort treats NaN as 0, i.e. as a tie — in both directions. -/
theorem C8_newest_first_cex :
    unparsableAlbum.release_date = some "abc"
  ∧ parseReleaseDate dayPrecAlbum.release_date = some (some (jsDateTime 2025 7 15))
  ∧ sortCompareResult unparsableAlbum dayPrecAlbum = 0
  ∧ sortCompareResult dayPrecAlbum unparsableAlbum = 0 := by decide

/-- C8 (amended): a release whose date is *missing or empty* sorts after
every dated release (comparator 1 / −1); among validly dated releases the
comparator is strictly by instant descending (`tb − ta`); a release with
a non-empty unparsable date yields an Invalid Date whose comparisons
against any parsed date are NaN, treated as a tie by the sort; and
`"2025-08"` parses identically to `"2025-08-01"` and therefore sorts
after `"2025-08-15"`. -/
theorem C8_newest_first (a b : Album) (ta tb : Int) :
    ((a.release_date = none ∨ a.release_date = some "") →
      parseReleaseDate b.release_date = some (some tb) →
      sortByReleaseDate a b = some 1 ∧ sortByReleaseDate b a = some (-1))
  ∧ (parseReleaseDate a.release_date = some (some ta) →
      parseReleaseDate b.release_date = some (some tb) →
      sortByReleaseDate a b = some (tb - ta))
  ∧ (parseReleaseDate a.release_date = some none →
      (parseReleaseDate b.release_date).isSome →
      sortCompareResult a b = 0)
  ∧ parseReleaseDate monthPrecAlbum.release_date = parseReleaseDate (some "2025-08-01")
  ∧ 0 < sortCompareResult monthPrecAlbum dayPrecAlbum := by
  refine ⟨fun ha hb => ?_, fun ha hb => ?_, fun ha hb => ?_, by decide, by decide⟩
  · have hpa : parseReleaseDate a.release_date = none := by
      rcases ha with h | h <;> simp [parseReleaseDate, h]
    constructor <;> simp [sortByReleaseDate, hpa, hb]
  · simp [sortByReleaseDate, ha, hb]
  · obtain ⟨db, hdb⟩ := Option.isSome_iff_exists.mp hb
    cases db <;> simp [sortCompareResult, sortByReleaseDate, ha, hdb]

/-- C8 witness: a missing-date release against a dated one, and the two
dated releases of Scenario D, via `C8_newest_first`. -/
theorem C8_newest_first_witness :
    sortByReleaseDate missingDateAlbum dayPrecAlbum = some 1
  ∧ sortByReleaseDate dayPrecAlbum monthPrecAlbum =
      some (jsDateTime 2025 7 1 - jsDateTime 2025 7 15) := by
  constructor
  · exact ((C8_newest_first missingDateAlbum dayPrecAlbum 0 (jsDateTime 2025 7 15)).1
      (Or.inl rfl) (by decide)).1
  · exact (C8_newest_first dayPrecAlbum monthPrecAlbum (jsDateTime 2025 7 15)
      (jsDateTime 2025 7 1)).2.1 (by decide) (by decide)

/-! ### Helper lemmas about the comparator and the sort -/

theorem validInstant_eq (a : Album) (t : Int)
    (h : validInstant a = some t) :
    parseReleaseDate a.release_date = some (some t) := by
  unfold validInstant at h
  rcases hp : parseReleaseDate a.release_date with _ | d
  · rw [hp] at h; simp at h
  · rcases d with _ | t'
    · rw [hp] at h; simp at h
    · rw [hp] at h; simp at h; rw [h]

theorem validInstant_of_recent (a : Album) (daysBack now : Int)
    (h : isRecentRelease a daysBack now = true) : (validInstant a).isSome := by
  unfold isRecentRelease at h
  unfold validInstant
  rcases hp : parseReleaseDate a.release_date with _ | d
  · rw [hp] at h; simp at h
  · rcases d with _ | t
    · rw [hp] at h; simp at h
    · rfl

theorem sortCompareResult_antisymm (a b : Album) :
    sortCompareResult a b = -(sortCompareResult b a) := by
  unfold sortCompareResult sortByReleaseDate
  rcases parseReleaseDate a.release_date with _ | da <;>
    rcases parseReleaseDate b.release_date with _ | db
  · simp
  · simp
  · simp
  · rcases da with _ | ta <;> rcases db with _ | tb <;> simp

theorem sortLe_total (a b : Album) : sortLe a b = true ∨ sortLe b a = true := by
  unfold sortLe
  have h := sortCompareResult_antisymm a b
  rcases le_or_lt (sortCompareResult a b) 0 with h0 | h0
  · exact Or.inl (by simpa using h0)
  · refine Or.inr (by simp; omega)

theorem sortLe_valid (a b : Album) (ta tb : Int)
    (ha : validInstant a = some ta) (hb : validInstant b = some tb) :
    (sortLe a b = true ↔ tb ≤ ta) := by
  unfold sortLe sortCompareResult sortByReleaseDate
  rw [validInstant_eq a ta ha, validInstant_eq b tb hb]
  simp

theorem sortLe_trans_valid (a b c : Album)
    (ha : (validInstant a).isSome) (hb : (validInstant b).isSome)
    (hc : (validInstant c).isSome)
    (h1 : sortLe a b = true) (h2 : sortLe b c = true) : sortLe a c = true := by
  obtain ⟨ta, hta⟩ := Option.isSome_iff_exists.mp ha
  obtain ⟨tb, htb⟩ := Option.isSome_iff_exists.mp hb
  obtain ⟨tc, htc⟩ := Option.isSome_iff_exists.mp hc
  rw [sortLe_valid a b ta tb hta htb] at h1
  rw [sortLe_valid b c tb tc htb htc] at h2
  rw [sortLe_valid a c ta tc hta htc]
  omega

theorem mem_insertSorted (x a : Album) (l : List Album) :
    a ∈ insertSorted x l ↔ a = x ∨ a ∈ l := by
  induction l with
  | nil => simp [insertSorted]
  | cons y ys ih =>
    simp only [insertSorted]
    split
    · simp only [List.mem_cons]
    · simp only [List.mem_cons, ih]
      tauto

theorem mem_stableSortByRelease (a : Album) (l : List Album) :
    a ∈ stableSortByRelease l ↔ a ∈ l := by
  induction l with
  | nil => simp [stableSortByRelease]
  | cons y ys ih =>
    simp only [stableSortByRelease, mem_insertSorted, List.mem_cons, ih]

theorem insertSorted_pairwise (x : Album) (l : List Album)
    (hx : (validInstant x).isSome) (hl : ∀ a ∈ l, (validInstant a).isSome)
    (hp : l.Pairwise (fun a b => sortLe a b = true)) :
    (insertSorted x l).Pairwise (fun a b => sortLe a b = true) := by
  induction l with
  | nil => simp [insertSorted]
  | cons y ys ih =>
    rw [List.pairwise_cons] at hp
    simp only [insertSorted]
    split
    · rename_i hxy
      refine List.pairwise_cons.mpr ⟨?_, List.pairwise_cons.mpr ⟨hp.1, hp.2⟩⟩
      intro z hz
      rcases List.mem_cons.mp hz with rfl | hz'
      · exact hxy
      · exact sortLe_trans_valid x y z hx (hl y (List.mem_cons_self y ys))
          (hl z (List.mem_cons_of_mem y hz')) hxy (hp.1 z hz')
    · rename_i hxy
      refine List.pairwise_cons.mpr
        ⟨?_, ih (fun a ha => hl a (List.mem_cons_of_mem y ha)) hp.2⟩
      intro z hz
      rcases (mem_insertSorted x z ys).mp hz with rfl | hz'
      · rcases sortLe_total z y with h | h
        · exact absurd h hxy
        · exact h
      · exact hp.1 z hz'

theorem stableSortByRelease_pairwise (l : List Album)
    (hl : ∀ a ∈ l, (validInstant a).isSome) :
    (stableSortByRelease l).Pairwise (fun a b => sortLe a b = true) := by
  induction l with
  | nil => simp [stableSortByRelease]
  | cons y ys ih =>
    exact insertSorted_pairwise y (stableSortByRelease ys)
      (hl y (List.mem_cons_self y ys))
      (fun a ha => hl a (List.mem_cons_of_mem y ((mem_stableSortByRelease a ys).mp ha)))
      (ih (fun a ha => hl a (List.mem_cons_of_mem y ha)))

/-- C3 counterexample: `filterReleases` does not deduplicate by release
id — feeding the same in-window album twice returns it twice, so two
output elements share an id. -/
theorem C3_no_dedup_cex :
    filterReleases [recentAlbum, recentAlbum] 10 scenarioNow = [recentAlbum, recentAlbum]
  ∧ ¬ ((filterReleases [recentAlbum, recentAlbum] 10 scenarioNow).map (·.id)).Nodup := by
  exact ⟨by decide, by decide⟩

/-- C3 (amended): for every input sequence and every window,
`filterReleases` returns only releases classified as album or EP, never
returns a release whose recency test is false at call time, and sorts
the result newest-first (every adjacent pair satisfies the comparator);
it does NOT deduplicate by release id — duplicates pass through
unchanged (track-level dedup happens later, in
`removeDuplicateTracks`). -/
theorem C3_filter_and_sort (albums : List Album) (daysBack now : Int) :
    (∀ r ∈ filterReleases albums daysBack now,
        isAlbumOrEP r = true ∧ isRecentRelease r daysBack now = true)
  ∧ (filterReleases albums daysBack now).Pairwise (fun a b => sortLe a b = true) := by
  constructor
  · intro r hr
    have hr' := (mem_stableSortByRelease r _).mp hr
    have h2 := List.mem_filter.mp hr'
    have h1 := List.mem_filter.mp h2.1
    exact ⟨h1.2, h2.2⟩
  · apply stableSortByRelease_pairwise
    intro a ha
    exact validInstant_of_recent a daysBack now (List.mem_filter.mp ha).2

/-- C3 witness: a concrete run keeping only the in-window album, with the
membership fact discharged through `C3_filter_and_sort`. -/
theorem C3_filter_and_sort_witness :
    filterReleases [oldAlbum, zeroTrackSingle, recentAlbum] 10 scenarioNow = [recentAlbum]
  ∧ isAlbumOrEP recentAlbum = true
  ∧ isRecentRelease recentAlbum 10 scenarioNow = true := by
  refine ⟨by decide, ?_⟩
  exact (C3_filter_and_sort [oldAlbum, zeroTrackSingle, recentAlbum] 10 scenarioNow).1
    recentAlbum (by decide)

/-! ### Helper lemmas about the artist map -/

theorem findEntry_none_iff (m : ArtistMap) (k : String) :
    findEntry m k = none ↔ k ∉ m.map (·.1) := by
  induction m with
  | nil => simp [findEntry]
  | cons p rest ih =>
    obtain ⟨k', v⟩ := p
    by_cases h : k' = k
    · subst h
      simp [findEntry, ih]
    · simp [findEntry, h, ih, Ne.symm h]

theorem updateEntry_keys (f : MergedArtist → MergedArtist) (m : ArtistMap) (k : String) :
    (updateEntry f m k).map (·.1) = m.map (·.1) := by
  induction m with
  | nil => rfl
  | cons p rest ih =>
    obtain ⟨k', v⟩ := p
    by_cases h : k' = k <;> simp [updateEntry, h, ih]

theorem findEntry_updateEntry_self (f : MergedArtist → MergedArtist) (m : ArtistMap)
    (k : String) (v : MergedArtist) (h : findEntry m k = some v) :
    findEntry (updateEntry f m k) k = some (f v) := by
  induction m with
  | nil => simp [findEntry] at h
  | cons p rest ih =>
    obtain ⟨k', w⟩ := p
    by_cases hk : k' = k
    · subst hk
      simp [findEntry] at h
      simp [updateEntry, findEntry, h]
    · simp [findEntry, hk] at h
      simp [updateEntry, findEntry, hk, ih h]

theorem findEntry_updateEntry_ne (f : MergedArtist → MergedArtist) (m : ArtistMap)
    (k k' : String) (h : k' ≠ k) :
    findEntry (updateEntry f m k) k' = findEntry m k' := by
  induction m with
  | nil => rfl
  | cons p rest ih =>
    obtain ⟨k0, w⟩ := p
    by_cases hk : k0 = k
    · subst hk
      simp [updateEntry, findEntry, Ne.symm h, ih]
    · by_cases hk' : k0 = k' <;> simp [updateEntry, findEntry, hk, hk', h, ih]

theorem mem_updateEntry (f : MergedArtist → MergedArtist) (m : ArtistMap) (k : String)
    (p : String × MergedArtist) (hp : p ∈ updateEntry f m k) :
    p ∈ m ∨ ∃ v, (k, v) ∈ m ∧ p = (k, f v) := by
  induction m with
  | nil => simp [updateEntry] at hp
  | cons q rest ih =>
    obtain ⟨k', w⟩ := q
    simp only [updateEntry] at hp
    split at hp
    · rename_i hk
      rcases List.mem_cons.mp hp with rfl | hp'
      · exact Or.inr ⟨w, by rw [← hk]; exact List.mem_cons_self _ _, by rw [hk]⟩
      · exact Or.inl (List.mem_cons_of_mem _ hp')
    · rcases List.mem_cons.mp hp with rfl | hp'
      · exact Or.inl (List.mem_cons_self _ _)
      · rcases ih hp' with h | ⟨v, hv, rfl⟩
        · exact Or.inl (List.mem_cons_of_mem _ h)
        · exact Or.inr ⟨v, List.mem_cons_of_mem _ hv, rfl⟩

theorem addSourceTag_id (s : String) (v : MergedArtist) :
    (addSourceTag s v).id = v.id := by
  unfold addSourceTag; split <;> rfl

theorem addSourceTag_nodup (s : String) (v : MergedArtist) (h : v.sources.Nodup) :
    (addSourceTag s v).sources.Nodup := by
  unfold addSourceTag
  split
  · exact h
  · rename_i hs
    simp only []
    rw [List.nodup_append]
    exact ⟨h, List.nodup_singleton s, by simpa using hs⟩

theorem mapWF_addArtistStep (src : String) (m : ArtistMap) (a : SrcArtist)
    (hm : MapWF m) : MapWF (addArtistStep src m a) := by
  unfold addArtistStep
  split
  · exact hm
  · obtain ⟨hkeys, hent⟩ := hm
    rcases hfind : findEntry m a.id with _ | v
    · simp only [hfind]
      constructor
      · rw [List.map_append]
        simp only [List.map_cons, List.map_nil]
        rw [List.nodup_append]
        refine ⟨hkeys, List.nodup_singleton _, ?_⟩
        intro x hx
        simp only [List.mem_singleton]
        intro hxa
        subst hxa
        exact (findEntry_none_iff m a.id).mp hfind hx
      · intro p hp
        rcases List.mem_append.mp hp with h | h
        · exact hent p h
        · simp only [List.mem_singleton] at h
          subst h
          exact ⟨rfl, List.nodup_singleton src⟩
    · simp only [hfind]
      constructor
      · rw [updateEntry_keys]; exact hkeys
      · intro p hp
        rcases mem_updateEntry _ m a.id p hp with h | ⟨v', hv', rfl⟩
        · exact hent p h
        · have h' := hent (a.id, v') hv'
          exact ⟨by rw [addSourceTag_id]; exact h'.1, addSourceTag_nodup _ _ h'.2⟩

theorem mapWF_addArtistsFromSource (m : ArtistMap) (artists : List SrcArtist)
    (src : String) (hm : MapWF m) : MapWF (addArtistsFromSource m artists src) := by
  induction artists generalizing m with
  | nil => exact hm
  | cons a rest ih => exact ih _ (mapWF_addArtistStep src m a hm)

theorem mapWF_combine (f l s : List SrcArtist) :
    MapWF (addArtistsFromSource
      (addArtistsFromSource (addArtistsFromSource [] f "followed") l "liked_tracks")
      s "saved_albums") := by
  refine mapWF_addArtistsFromSource _ _ _
    (mapWF_addArtistsFromSource _ _ _ (mapWF_addArtistsFromSource _ _ _ ?_))
  exact ⟨List.nodup_nil, by simp⟩

/-- C6: artist merging deduplicates and is idempotent. For every
combination of source lists the merged output has at most one entry per
artist id and no entry's source list has a duplicate tag; adding the same
artist twice from one source yields a single entry tagged once with that
source; and an artist surfacing in both Followed and LikedTracks with the
same id yields exactly one entry carrying both tags. -/
theorem C6_merge_dedup :
    (∀ f l s : List SrcArtist,
      ((combineArtistSources f l s).map (·.id)).Nodup ∧
      ∀ x ∈ combineArtistSources f l s, x.sources.Nodup)
  ∧ (∀ (a : SrcArtist) (src : String), a.id ≠ "" →
      (addArtistsFromSource [] [a, a] src).map (·.2) = [enhanceArtist a src] ∧
      (enhanceArtist a src).sources = [src])
  ∧ (∀ a b : SrcArtist, a.id ≠ "" → b.id = a.id →
      (combineArtistSources [a] [b] []).length = 1 ∧
      ∀ x ∈ combineArtistSources [a] [b] [], x.sources = ["followed", "liked_tracks"]) := by
  refine ⟨fun f l s => ?_, fun a src hid => ?_, fun a b hid hb => ?_⟩
  · obtain ⟨hkeys, hent⟩ := mapWF_combine f l s
    constructor
    · unfold combineArtistSources
      rw [List.map_map]
      have : ∀ p ∈ addArtistsFromSource
          (addArtistsFromSource (addArtistsFromSource [] f "followed") l "liked_tracks")
          s "saved_albums", ((·.id) ∘ (·.2)) p = p.1 := fun p hp => (hent p hp).1
      rw [List.map_congr_left this]
      exact hkeys
    · intro x hx
      unfold combineArtistSources at hx
      obtain ⟨p, hp, rfl⟩ := List.mem_map.mp hx
      exact (hent p hp).2
  · constructor
    · simp [addArtistsFromSource, addArtistStep, findEntry, updateEntry, addSourceTag,
        enhanceArtist, hid]
    · rfl
  · have hres : combineArtistSources [a] [b] [] =
        [{ enhanceArtist a "followed" with sources := ["followed", "liked_tracks"] }] := by
      simp [combineArtistSources, addArtistsFromSource, addArtistStep, findEntry,
        updateEntry, addSourceTag, enhanceArtist, hid, hb]
    rw [hres]
    exact ⟨rfl, by intro x hx; simp only [List.mem_singleton] at hx; subst hx; rfl⟩

/-- C6 witness: the concrete merge scenarios on `srcArtistA`. -/
theorem C6_merge_dedup_witness :
    (addArtistsFromSource [] [srcArtistA, srcArtistA] "followed").map (·.2)
      = [enhanceArtist srcArtistA "followed"]
  ∧ (combineArtistSources [srcArtistA] [srcArtistA2] []).length = 1
  ∧ ((combineArtistSources [srcArtistA, srcArtistA2] [] []).map (·.id)).Nodup := by
  refine ⟨(C6_merge_dedup.2.1 srcArtistA "followed" (by decide)).1, ?_, ?_⟩
  · exact (C6_merge_dedup.2.2 srcArtistA srcArtistA2 (by decide) (by decide)).1
  · exact (C6_merge_dedup.1 [srcArtistA, srcArtistA2] [] []).1

/-- C7: first-seen-wins frame property. When an id already present in the
map reappears (from any source), only the stored record's `sources` list
changes — the new tag is appended when absent and nothing changes when it
is already present — while `id`, `name`, `spotify_url`, `genres`,
`popularity` and `followers` are untouched, and every other key's entry
is unchanged. -/
theorem C7_merge_frame (m : ArtistMap) (a : SrcArtist) (src : String) (ex : MergedArtist)
    (hfound : findEntry m a.id = some ex) (hid : a.id ≠ "") :
    findEntry (addArtistsFromSource m [a] src) a.id = some (addSourceTag src ex)
  ∧ (addSourceTag src ex).id = ex.id
  ∧ (addSourceTag src ex).name = ex.name
  ∧ (addSourceTag src ex).spotify_url = ex.spotify_url
  ∧ (addSourceTag src ex).genres = ex.genres
  ∧ (addSourceTag src ex).popularity = ex.popularity
  ∧ (addSourceTag src ex).followers = ex.followers
  ∧ (src ∉ ex.sources → (addSourceTag src ex).sources = ex.sources ++ [src])
  ∧ (src ∈ ex.sources → (addSourceTag src ex).sources = ex.sources)
  ∧ (∀ k, k ≠ a.id → findEntry (addArtistsFromSource m [a] src) k = findEntry m k) := by
  have hstep : addArtistsFromSource m [a] src = updateEntry (addSourceTag src) m a.id := by
    simp [addArtistsFromSource, addArtistStep, hid, hfound]
  refine ⟨?_, ?_, ?_, ?_, ?_, ?_, ?_, ?_, ?_, ?_⟩
  · rw [hstep]
    exact findEntry_updateEntry_self _ m a.id ex hfound
  · exact addSourceTag_id src ex
  · unfold addSourceTag; split <;> rfl
  · unfold addSourceTag; split <;> rfl
  · unfold addSourceTag; split <;> rfl
  · unfold addSourceTag; split <;> rfl
  · unfold addSourceTag; split <;> rfl
  · intro hs; simp [addSourceTag, hs]
  · intro hs; simp [addSourceTag, hs]
  · intro k hk
    rw [hstep]
    exact findEntry_updateEntry_ne _ m a.id k hk

/-- C7 witness: the Scenario-A duplicate occurrence of id `"a1"` from a
second source, via `C7_merge_frame`. -/
theorem C7_merge_frame_witness :
    findEntry (addArtistsFromSource [("a1", enhanceArtist srcArtistA "followed")]
        [srcArtistA2] "liked_tracks") "a1"
      = some (addSourceTag "liked_tracks" (enhanceArtist srcArtistA "followed"))
  ∧ (addSourceTag "liked_tracks" (enhanceArtist srcArtistA "followed")).name = "Alpha" := by
  constructor
  · exact (C7_merge_frame [("a1", enhanceArtist srcArtistA "followed")] srcArtistA2
      "liked_tracks" (enhanceArtist srcArtistA "followed") (by decide) (by decide)).1
  · decide

/-! ### Helper lemmas about digit rendering and message parsing -/

theorem ofNat_digit_isDigit (d : Nat) (h : d < 10) :
    (Char.ofNat (48 + d)).isDigit = true := by
  interval_cases d <;> decide

theorem ofNat_digit_toNat (d : Nat) (h : d < 10) :
    (Char.ofNat (48 + d)).toNat - 48 = d := by
  interval_cases d <;> decide

theorem digitsVal_append_digit (l : List Char) (c : Char) :
    digitsVal (l ++ [c]) = 10 * digitsVal l + (c.toNat - 48) := by
  unfold digitsVal
  rw [List.foldl_append]
  rfl

theorem natCharsAux_ne_nil (fuel n : Nat) (h : n < fuel) : natCharsAux fuel n ≠ [] := by
  cases fuel with
  | zero => omega
  | succ fuel =>
    unfold natCharsAux
    split
    · simp
    · simp

theorem natCharsAux_isDigit (fuel n : Nat) (h : n < fuel) :
    ∀ c ∈ natCharsAux fuel n, c.isDigit = true := by
  induction fuel generalizing n with
  | zero => omega
  | succ fuel ih =>
    unfold natCharsAux
    split
    · rename_i hn
      intro c hc
      simp only [List.mem_singleton] at hc
      subst hc
      exact ofNat_digit_isDigit n hn
    · rename_i hn
      intro c hc
      rcases List.mem_append.mp hc with h1 | h2
      · have hdiv : n / 10 < n := Nat.div_lt_self (by omega) (by norm_num)
        exact ih (n / 10) (by omega) c h1
      · simp only [List.mem_singleton] at h2
        subst h2
        exact ofNat_digit_isDigit (n % 10) (Nat.mod_lt _ (by norm_num))

theorem digitsVal_natCharsAux (fuel n : Nat) (h : n < fuel) :
    digitsVal (natCharsAux fuel n) = n := by
  induction fuel generalizing n with
  | zero => omega
  | succ fuel ih =>
    unfold natCharsAux
    split
    · rename_i hn
      show digitsVal [Char.ofNat (48 + n)] = n
      unfold digitsVal
      simp only [List.foldl_cons, List.foldl_nil]
      rw [Nat.mul_zero, Nat.zero_add]
      exact ofNat_digit_toNat n hn
    · rename_i hn
      have hdiv : n / 10 < n := Nat.div_lt_self (by omega) (by norm_num)
      rw [digitsVal_append_digit, ih (n / 10) (by omega),
        ofNat_digit_toNat (n % 10) (Nat.mod_lt _ (by norm_num))]
      omega

theorem natChars_ne_nil (n : Nat) : natChars n ≠ [] :=
  natCharsAux_ne_nil (n + 1) n (Nat.lt_succ_self n)

theorem natChars_isDigit (n : Nat) : ∀ c ∈ natChars n, c.isDigit = true :=
  natCharsAux_isDigit (n + 1) n (Nat.lt_succ_self n)

theorem digitsVal_natChars (n : Nat) : digitsVal (natChars n) = n :=
  digitsVal_natCharsAux (n + 1) n (Nat.lt_succ_self n)

theorem dropWhile_append_all {α : Type} (p : α → Bool) (l1 l2 : List α)
    (h : ∀ x ∈ l1, p x = true) : (l1 ++ l2).dropWhile p = l2.dropWhile p := by
  induction l1 with
  | nil => rfl
  | cons a rest ih =>
    simp only [List.cons_append, List.dropWhile_cons]
    rw [if_pos (h a (List.mem_cons_self _ _))]
    exact ih (fun x hx => h x (List.mem_cons_of_mem _ hx))

theorem takeWhile_append_all {α : Type} (p : α → Bool) (l1 l2 : List α)
    (h : ∀ x ∈ l1, p x = true) : (l1 ++ l2).takeWhile p = l1 ++ l2.takeWhile p := by
  induction l1 with
  | nil => rfl
  | cons a rest ih =>
    simp only [List.cons_append, List.takeWhile_cons]
    rw [if_pos (h a (List.mem_cons_self _ _))]
    rw [ih (fun x hx => h x (List.mem_cons_of_mem _ hx))]

/-- The regex extraction in `processBatch` recovers exactly the
retry-after number carried by the rate-limit message. -/
theorem firstNat_rateLimitedMessage (ra : Option Nat) :
    firstNat (rateLimitedMessage ra) = some (retryAfterOf ra) := by
  unfold firstNat rateLimitedMessage
  rw [List.append_assoc]
  rw [dropWhile_append_all (fun c => !c.isDigit) "Rate limited. Retry after ".data _
    (by decide)]
  obtain ⟨c, cs, hcons⟩ := List.exists_cons_of_ne_nil (natChars_ne_nil (retryAfterOf ra))
  have hdig := natChars_isDigit (retryAfterOf ra)
  rw [hcons] at hdig ⊢
  simp only [List.cons_append, List.dropWhile_cons]
  rw [if_neg (by rw [hdig c (List.mem_cons_self _ _)]; decide)]
  unfold digitsPre
  rw [show (c :: (cs ++ " seconds".data)) = (c :: cs) ++ " seconds".data from rfl]
  rw [takeWhile_append_all Char.isDigit (c :: cs) " seconds".data
    (fun x hx => hdig x hx)]
  rw [show " seconds".data.takeWhile Char.isDigit = [] from by decide]
  rw [List.append_nil]
  simp only [reduceCtorEq, if_neg (List.cons_ne_nil c cs)]
  rw [← hcons, digitsVal_natChars]
  simp

theorem isPrefixOf_append_self (l t : List Char) : l.isPrefixOf (l ++ t) = true := by
  induction l with
  | nil => simp [List.isPrefixOf]
  | cons c cs ih => simp [List.isPrefixOf, ih]

theorem includesSub_append_self (sub rest : List Char) :
    includesSub sub (sub ++ rest) = true := by
  cases sub with
  | nil =>
    cases rest with
    | nil => rfl
    | cons c r => simp [includesSub, List.isPrefixOf]
  | cons c cs =>
    have h := isPrefixOf_append_self (c :: cs) rest
    simp only [List.cons_append] at h ⊢
    simp [includesSub, h]

/-- The rate-limit message does contain the substring the scheduler
matches on. -/
theorem includesSub_rateLimited (ra : Option Nat) :
    includesSub "Rate limited".data (rateLimitedMessage ra) = true := by
  unfold rateLimitedMessage
  rw [show "Rate limited. Retry after ".data
      = "Rate limited".data ++ ". Retry after ".data from by decide]
  rw [List.append_assoc]
  exact includesSub_append_self _ _

/-! ### Helper lemmas about the batch scheduler -/

theorem processArtistStep_eq (oracle : ApiOracle) (now : Int) (log : BatchLog) (i : Nat)
    (artist : Artist) :
    processArtistStep oracle now log i artist =
      { results := log.results ++ artistAlbums oracle now artist
        delaysMs := log.delaysMs ++ ((if i > 0 then [100] else [])
          ++ artistDelays oracle now artist)
        calls := log.calls ++ artistCalls oracle now artist } := by
  unfold processArtistStep artistAlbums artistCalls artistDelays
  by_cases hi : i > 0 <;>
    cases h : fetchArtistAlbums (oracle artist.id 0) artist.name now with
  | error msg =>
    by_cases hrl : includesSub "Rate limited".data msg = true
    · cases h1 : fetchArtistAlbums (oracle artist.id 1) artist.name now <;>
        simp [hi, h, hrl, h1]
    · simp [hi, h, Bool.of_not_eq_true hrl]
  | ok albums => simp [hi, h]

theorem processBatch_foldl (oracle : ApiOracle) (now : Int) (batch : List Artist) :
    ∀ (log : BatchLog) (i : Nat),
    (batch.foldl (fun st artist => (processArtistStep oracle now st.1 st.2 artist, st.2 + 1))
        (log, i)).1 =
      { results := log.results ++ batch.flatMap (artistAlbums oracle now)
        delaysMs := log.delaysMs ++ batchDelays oracle now i batch
        calls := log.calls ++ batch.flatMap (artistCalls oracle now) } := by
  induction batch with
  | nil => intro log i; simp [batchDelays]
  | cons a rest ih =>
    intro log i
    simp only [List.foldl_cons]
    rw [processArtistStep_eq]
    rw [ih]
    simp [batchDelays, List.append_assoc]

/-- `processBatch` in closed form: per-artist results, calls and delays
concatenated in batch order. -/
theorem processBatch_eq (oracle : ApiOracle) (now : Int) (batch : List Artist) :
    processBatch oracle now batch =
      { results := batch.flatMap (artistAlbums oracle now)
        delaysMs := batchDelays oracle now 0 batch
        calls := batch.flatMap (artistCalls oracle now) } := by
  unfold processBatch
  rw [processBatch_foldl]
  simp

theorem batchDelays_append (oracle : ApiOracle) (now : Int) (l1 l2 : List Artist) :
    ∀ i, batchDelays oracle now i (l1 ++ l2) =
      batchDelays oracle now i l1 ++ batchDelays oracle now (i + l1.length) l2 := by
  induction l1 with
  | nil => intro i; simp [batchDelays]
  | cons a rest ih =>
    intro i
    calc batchDelays oracle now i ((a :: rest) ++ l2)
        = (if i > 0 then [100] else []) ++ artistDelays oracle now a
            ++ batchDelays oracle now (i + 1) (rest ++ l2) := by
          rw [List.cons_append]
          rfl
      _ = (if i > 0 then [100] else []) ++ artistDelays oracle now a
            ++ (batchDelays oracle now (i + 1) rest
              ++ batchDelays oracle now (i + 1 + rest.length) l2) := by
          rw [ih (i + 1)]
      _ = batchDelays oracle now i (a :: rest)
            ++ batchDelays oracle now (i + (a :: rest).length) l2 := by
          rw [show i + 1 + rest.length = i + (a :: rest).length from by simp; omega]
          show _ = ((if i > 0 then [100] else []) ++ artistDelays oracle now a
            ++ batchDelays oracle now (i + 1) rest) ++ _
          simp [List.append_assoc]

theorem fetchArtistAlbums_httpError (sc : Nat) (ra2 : Option Nat) (name : String)
    (now : Int) (h : sc ≠ 404) :
    ∃ msg, fetchArtistAlbums (.httpError sc ra2) name now = .error msg := by
  unfold fetchArtistAlbums
  split
  · rename_i heq
    cases heq
  · exact ⟨_, rfl⟩
  · rename_i heq
    cases heq
    exact absurd rfl h
  · split
    · exact ⟨_, rfl⟩
    · exact ⟨_, rfl⟩

theorem chunkedAux_flatMap (g : Artist → List Album) :
    ∀ (fuel : Nat) (l : List Artist), l.length ≤ fuel →
    (chunkedAux fuel l).flatMap (fun b => b.flatMap g) = l.flatMap g := by
  intro fuel
  induction fuel with
  | zero =>
    intro l hl
    have : l = [] := List.eq_nil_of_length_eq_zero (Nat.le_zero.mp hl)
    subst this
    rfl
  | succ fuel ih =>
    intro l hl
    unfold chunkedAux
    split
    · rename_i h
      subst h
      rfl
    · rename_i h
      rw [List.flatMap_cons]
      rw [ih (l.drop 10) ?hlen]
      · rw [← List.flatMap_append, List.take_append_drop]
      · have : l.length ≠ 0 := fun h0 => h (List.eq_nil_of_length_eq_zero h0)
        simp only [List.length_drop]
        omega

/-- C4 counterexample: with a single artist whose every request is rate
limited, the aggregate run does not fail with a summary error — it
returns normally with an empty release list and no failed-artist
metadata. -/
theorem C4_aggregate_cex :
    fetchAllArtistAlbums failOracle scenarioNow [artistX] = .ok []
  ∧ (fetchAllArtistAlbums failOracle scenarioNow [artistX]).isOk = true := ⟨rfl, rfl⟩

/-- C4 (amended): the aggregate run never fails, whatever the per-artist
outcomes: it returns the concatenation of the per-artist successes (an
artist whose retrieval — including the single rate-limit retry — fails
contributes nothing), with no summary error and no failed-artist
metadata. -/
theorem C4_aggregate_run (oracle : ApiOracle) (now : Int) (artists : List Artist) :
    fetchAllArtistAlbums oracle now artists =
      .ok (artists.flatMap (artistAlbums oracle now)) := by
  unfold fetchAllArtistAlbums
  congr 1
  calc (chunked artists).flatMap (fun batch => (processBatch oracle now batch).results)
      = (chunked artists).flatMap (fun batch => batch.flatMap (artistAlbums oracle now)) := by
        simp only [processBatch_eq]
    _ = artists.flatMap (artistAlbums oracle now) :=
        chunkedAux_flatMap (artistAlbums oracle now) artists.length artists (Nat.le_refl _)

/-- C2 counterexample: Scenario C with the retry also rate limited. The
equation gives the complete observable output of the batch: Y's album is
returned, the scheduler slept 2000ms and retried X once — but X is
recorded nowhere; there is no `failedArtistIds` in the result, the
retry's failure is swallowed silently. -/
theorem C2_rate_limit_cex :
    processBatch rlOracle scenarioNow [artistX, artistY] = c2ExpectedLog := by decide

/-- C2 (amended): for every batch and every artist X in it whose first
fetch fails with a 429 carrying `retry-after` `ra`: the scheduler sleeps
`retryAfterOf ra` seconds (at least the reported value, minimum 1),
retries X exactly once (X's calls are attempts 0 and 1, no more), and the
batch result is the concatenation of every artist's contribution — X's
releases are included when the retry succeeds, while a second failure
contributes nothing and is recorded nowhere (no `failedArtistIds`
exists); the other artists' releases are returned either way. -/
theorem C2_rate_limit_retry (oracle : ApiOracle) (now : Int) (pre post : List Artist)
    (x : Artist) (ra : Option Nat) (hrl : oracle x.id 0 = .httpError 429 ra) :
    retryAfterOf ra * 1000 ∈ (processBatch oracle now (pre ++ x :: post)).delaysMs
  ∧ ra.getD 1 ≤ retryAfterOf ra ∧ 1 ≤ retryAfterOf ra
  ∧ (processBatch oracle now (pre ++ x :: post)).calls
      = pre.flatMap (artistCalls oracle now) ++ [(x.id, 0), (x.id, 1)]
        ++ post.flatMap (artistCalls oracle now)
  ∧ (processBatch oracle now (pre ++ x :: post)).results
      = pre.flatMap (artistAlbums oracle now) ++ artistAlbums oracle now x
        ++ post.flatMap (artistAlbums oracle now)
  ∧ (∀ items, oracle x.id 1 = .pages items →
      artistAlbums oracle now x = (fetchArtistAlbumsWithEarlyTermination items now).1)
  ∧ (∀ sc ra2, oracle x.id 1 = .httpError sc ra2 → sc ≠ 404 →
      artistAlbums oracle now x = []) := by
  have hfetch : fetchArtistAlbums (oracle x.id 0) x.name now
      = .error (rateLimitedMessage ra) := by
    rw [hrl]
    rfl
  have hinc : includesSub "Rate limited".data (rateLimitedMessage ra) = true :=
    includesSub_rateLimited ra
  have hcallsx : artistCalls oracle now x = [(x.id, 0), (x.id, 1)] := by
    simp only [artistCalls, hfetch]
    rw [hinc]
    simp
  have hdelx : artistDelays oracle now x = [retryAfterOf ra * 1000] := by
    simp only [artistDelays, hfetch]
    rw [hinc]
    simp [firstNat_rateLimitedMessage]
  refine ⟨?_, ?_, ?_, ?_, ?_, fun items h1 => ?_, fun sc ra2 h1 h404 => ?_⟩
  · rw [processBatch_eq]
    show retryAfterOf ra * 1000 ∈ batchDelays oracle now 0 (pre ++ x :: post)
    rw [batchDelays_append]
    refine List.mem_append.mpr (Or.inr ?_)
    show retryAfterOf ra * 1000 ∈ batchDelays oracle now (0 + pre.length) (x :: post)
    unfold batchDelays
    rw [hdelx]
    refine List.mem_append.mpr (Or.inl (List.mem_append.mpr (Or.inr ?_)))
    exact List.mem_singleton.mpr rfl
  · unfold retryAfterOf
    rcases ra with _ | r
    · simp
    · simp only [Option.getD_some]
      split <;> omega
  · unfold retryAfterOf
    rcases ra with _ | r
    · simp
    · simp only []
      split <;> omega
  · rw [processBatch_eq]
    show (pre ++ x :: post).flatMap (artistCalls oracle now) = _
    rw [List.flatMap_append, List.flatMap_cons, hcallsx, List.append_assoc]
  · rw [processBatch_eq]
    show (pre ++ x :: post).flatMap (artistAlbums oracle now) = _
    rw [List.flatMap_append, List.flatMap_cons, List.append_assoc]
  · simp only [artistAlbums, hfetch]
    rw [hinc]
    simp only [if_pos]
    rw [h1]
    rfl
  · simp only [artistAlbums, hfetch]
    rw [hinc]
    simp only [if_pos]
    obtain ⟨msg2, hmsg2⟩ := fetchArtistAlbums_httpError sc ra2 x.name now h404
    rw [h1, hmsg2]

/-- C2 witness: Scenario C concretely — a 429 with `retry-after: 2` on X
in the batch `[X, Y]`, via `C2_rate_limit_retry`. -/
theorem C2_rate_limit_retry_witness :
    rlOracle artistX.id 0 = ApiResponse.httpError 429 (some 2)
  ∧ 2000 ∈ (processBatch rlOracle scenarioNow [artistX, artistY]).delaysMs
  ∧ (processBatch rlOracle scenarioNow [artistX, artistY]).calls
      = [(artistX.id, 0), (artistX.id, 1), (artistY.id, 0)] := by
  refine ⟨rfl, ?_, ?_⟩
  · have h := (C2_rate_limit_retry rlOracle scenarioNow [] [artistY] artistX (some 2)
      rfl).1
    simpa [retryAfterOf] using h
  · have h := (C2_rate_limit_retry rlOracle scenarioNow [] [artistY] artistX (some 2)
      rfl).2.2.2.1
    rw [show ([] : List Artist) ++ artistX :: [artistY] = [artistX, artistY] from rfl] at h
    rw [h]
    decide

end SpotifyNotif
